import Mathlib

/-!
Verification of the reloco fallible-container core: a shallow embedding of
`src/include/reloco/vector.hpp`, `construction_helpers.hpp` and
`shared_ptr.hpp` into Lean, with proofs about the embedded operations.

Machine integers (`std::size_t`) are modelled as `Nat`: none of the verified
operations depend on wrap-around, and no source path exercises overflow.
Memory addresses returned by the allocator are modelled as abstract `Nat`
addresses; a null `data_` pointer is `Option.none`.
-/

namespace Reloco

/-- The closed error enumeration from `core.hpp` (`enum class error`). -/
inductive Error where
  | allocation_failed
  | in_place_growth_failed
  | unsupported_operation
  | out_of_range
  | invalid_argument
  | already_exists
  | empty_pointer
  | pointer_expired
  | no_owner
  | out_of_bounds
  | deadlock
  | invalid_owner
  | still_locked
  | not_locked
  | timed_out
  | try_again
  | not_initialized
  | container_empty
  | not_found
  deriving DecidableEq, Repr

/-- `mem_block` from `core.hpp`: {address, size}. The address is abstract. -/
structure mem_block where
  ptr : Nat
  size : Nat
  deriving DecidableEq, Repr

/-- The `fallible_allocator` interface from `core.hpp`, modelled as a pure
state machine over an allocator-internal state `σ`.  Each fallible call
returns the successor state together with an `Except` result; `deallocate`
is infallible and only transforms the state.  `reallocate` receives the
(possibly null) old data pointer. -/
structure fallible_allocator (σ : Type) where
  allocate : σ → Nat → Nat → σ × Except Error mem_block
  expand_in_place : σ → Nat → Nat → Nat → σ × Except Error Nat
  reallocate : σ → Option Nat → Nat → Nat → Nat → σ × Except Error mem_block
  deallocate : σ → Nat → Nat → σ

/-- The state of `reloco::vector<T>`: the `data_` pointer (none = nullptr),
the live elements `data_[0..size_)` as a list (so `size_ = elems.length`),
and `cap_`. -/
structure vec (T : Type) where
  data : Option Nat
  elems : List T
  cap : Nat
  deriving DecidableEq, Repr

/-- The reallocate / allocate-move-deallocate tail of `vector::try_reserve`
(the part after the in-place growth attempt):  if `T` is relocatable,
`reallocate`; otherwise `allocate` a fresh block, move-construct every
element into it in index order, destroy the sources, and deallocate the old
block.  Either allocation failure maps to `error::allocation_failed` and
leaves the vector untouched. -/
def try_reserve_grow {σ T : Type} (A : fallible_allocator σ) (reloc : Bool)
    (szT alignT : Nat) (s : σ) (v : vec T) (new_cap : Nat) :
    σ × vec T × Except Error Unit :=
  if reloc then
    match A.reallocate s v.data (v.cap * szT) (new_cap * szT) alignT with
    | (s1, Except.error _) => (s1, v, Except.error Error.allocation_failed)
    | (s1, Except.ok blk) => (s1, ⟨some blk.ptr, v.elems, new_cap⟩, Except.ok ())
  else
    match A.allocate s (new_cap * szT) alignT with
    | (s1, Except.error _) => (s1, v, Except.error Error.allocation_failed)
    | (s1, Except.ok blk) =>
      match v.data with
      | some p => (A.deallocate s1 p (v.cap * szT), ⟨some blk.ptr, v.elems, new_cap⟩, Except.ok ())
      | none => (s1, ⟨some blk.ptr, v.elems, new_cap⟩, Except.ok ())

/-- `vector::try_reserve` (vector.hpp lines 91-131): no-op when
`new_cap ≤ cap_`; otherwise first try `expand_in_place` when `data_` is
non-null, and fall back to `try_reserve_grow`. -/
def try_reserve {σ T : Type} (A : fallible_allocator σ) (reloc : Bool)
    (szT alignT : Nat) (s : σ) (v : vec T) (new_cap : Nat) :
    σ × vec T × Except Error Unit :=
  if new_cap ≤ v.cap then (s, v, Except.ok ())
  else
    match v.data with
    | none => try_reserve_grow A reloc szT alignT s v new_cap
    | some p =>
      match A.expand_in_place s p (v.cap * szT) (new_cap * szT) with
      | (s1, Except.ok _) => (s1, ⟨v.data, v.elems, new_cap⟩, Except.ok ())
      | (s1, Except.error _) => try_reserve_grow A reloc szT alignT s1 v new_cap

/-- An allocator whose every fallible operation fails (a simulated
out-of-memory backend). -/
def failing_alloc : fallible_allocator Unit where
  allocate := fun s _ _ => (s, Except.error Error.allocation_failed)
  expand_in_place := fun s _ _ _ => (s, Except.error Error.in_place_growth_failed)
  reallocate := fun s _ _ _ _ => (s, Except.error Error.allocation_failed)
  deallocate := fun s _ _ => s

/-- A bump allocator that always succeeds: the state is the next free
address, `expand_in_place` always fails (the common backend behaviour the
spec notes), and `reallocate`/`allocate` hand out fresh addresses. -/
def counting_alloc : fallible_allocator Nat where
  allocate := fun s bytes _ => (s + bytes, Except.ok ⟨s, bytes⟩)
  expand_in_place := fun s _ _ _ => (s, Except.error Error.in_place_growth_failed)
  reallocate := fun s _ _ new_size _ => (s + new_size, Except.ok ⟨s, new_size⟩)
  deallocate := fun s _ _ => s

/-- Appending a constructed element at `data_ + size_` and incrementing
`size_` (the tail common to push/emplace/insert at the end). -/
def append_elem {T : Type} (v : vec T) (x : T) : vec T :=
  ⟨v.data, v.elems ++ [x], v.cap⟩

/-- `vector::try_push_back` (vector.hpp lines 158-168): grow with
`try_reserve(cap_ == 0 ? 8 : cap_ * 2)` when full, then move-construct the
value at `data_ + size_` and increment `size_`.  On success the result
carries the index of the new element (the C++ returns `data_ + size_`). -/
def try_push_back {σ T : Type} (A : fallible_allocator σ) (reloc : Bool)
    (szT alignT : Nat) (s : σ) (v : vec T) (val : T) :
    σ × vec T × Except Error Nat :=
  if v.elems.length = v.cap then
    match try_reserve A reloc szT alignT s v (if v.cap = 0 then 8 else v.cap * 2) with
    | (s1, v1, Except.error e) => (s1, v1, Except.error e)
    | (s1, v1, Except.ok _) => (s1, append_elem v1 val, Except.ok v1.elems.length)
  else (s, append_elem v val, Except.ok v.elems.length)

/-- `vector::try_emplace_back` (vector.hpp lines 133-156): same growth as
push; then, when `T` satisfies `has_try_create`, run `T::try_create(args)`
(modelled as the already-evaluated result `mk`) and move the produced value
in — propagating its error — otherwise construct directly from the argument
(`plain`), which cannot fail. -/
def try_emplace_back {σ T : Type} (A : fallible_allocator σ) (reloc : Bool)
    (szT alignT : Nat) (hasTryCreate : Bool) (mk : Except Error T) (plain : T)
    (s : σ) (v : vec T) : σ × vec T × Except Error Nat :=
  if v.elems.length = v.cap then
    match try_reserve A reloc szT alignT s v (if v.cap = 0 then 8 else v.cap * 2) with
    | (s1, v1, Except.error e) => (s1, v1, Except.error e)
    | (s1, v1, Except.ok _) =>
      if hasTryCreate then
        match mk with
        | Except.error e => (s1, v1, Except.error e)
        | Except.ok x => (s1, append_elem v1 x, Except.ok v1.elems.length)
      else (s1, append_elem v1 plain, Except.ok v1.elems.length)
  else
    if hasTryCreate then
      match mk with
      | Except.error e => (s, v, Except.error e)
      | Except.ok x => (s, append_elem v x, Except.ok v.elems.length)
    else (s, append_elem v plain, Except.ok v.elems.length)

/-- `vector::try_insert` (vector.hpp lines 250-288): `pos > size_` is
`out_of_range`; grow as push when full; shift `[pos, size_)` one slot right
(bulk `memmove` when relocatable, else the move-construct / move-assign /
destroy sequence — its slot-level operation trace is modelled separately
below); construct the new element in the hole; increment `size_`.  The
content effect of either shift is captured by `take pos ++ val :: drop
pos`. -/
def try_insert {σ T : Type} (A : fallible_allocator σ) (reloc : Bool)
    (szT alignT : Nat) (s : σ) (v : vec T) (pos : Nat) (val : T) :
    σ × vec T × Except Error Nat :=
  if pos > v.elems.length then (s, v, Except.error Error.out_of_range)
  else if v.elems.length = v.cap then
    match try_reserve A reloc szT alignT s v (if v.cap = 0 then 8 else v.cap * 2) with
    | (s1, v1, Except.error e) => (s1, v1, Except.error e)
    | (s1, v1, Except.ok _) =>
      (s1, ⟨v1.data, v1.elems.take pos ++ val :: v1.elems.drop pos, v1.cap⟩, Except.ok pos)
  else (s, ⟨v.data, v.elems.take pos ++ val :: v.elems.drop pos, v.cap⟩, Except.ok pos)

/-- `vector::try_erase` (vector.hpp lines 226-248): `pos >= size_` is
`out_of_range`; otherwise destroy the element at `pos`, shift
`[pos+1, size_)` left one slot (bulk or element-wise), decrement `size_`.
No allocator call is made; the content effect is `eraseIdx`. -/
def try_erase {T : Type} (v : vec T) (pos : Nat) : vec T × Except Error Unit :=
  if pos ≥ v.elems.length then (v, Except.error Error.out_of_range)
  else (⟨v.data, v.elems.take pos ++ v.elems.drop (pos + 1), v.cap⟩, Except.ok ())

/-- `vector::try_at` (vector.hpp lines 302-314): checked element access. -/
def try_at {T : Type} (v : vec T) (index : Nat) : Except Error T :=
  if h : index < v.elems.length then Except.ok (v.elems.get ⟨index, h⟩)
  else Except.error Error.out_of_range

theorem try_reserve_grow_error {σ T : Type} (A : fallible_allocator σ) (reloc : Bool)
    (szT alignT : Nat) (s : σ) (v : vec T) (new_cap : Nat)
    (s' : σ) (v' : vec T) (e : Error)
    (h : try_reserve_grow A reloc szT alignT s v new_cap = (s', v', Except.error e)) :
    v' = v ∧ e = Error.allocation_failed := by
  unfold try_reserve_grow at h
  split at h
  · split at h <;> simp_all
  · split at h
    · simp_all
    · split at h <;> simp_all

theorem try_reserve_error {σ T : Type} (A : fallible_allocator σ) (reloc : Bool)
    (szT alignT : Nat) (s : σ) (v : vec T) (new_cap : Nat)
    (s' : σ) (v' : vec T) (e : Error)
    (h : try_reserve A reloc szT alignT s v new_cap = (s', v', Except.error e)) :
    v' = v ∧ e = Error.allocation_failed := by
  unfold try_reserve at h
  split at h
  · simp_all
  · split at h
    · exact try_reserve_grow_error _ _ _ _ _ _ _ _ _ _ h
    · split at h
      · simp_all
      · exact try_reserve_grow_error _ _ _ _ _ _ _ _ _ _ h

theorem try_reserve_grow_ok {σ T : Type} (A : fallible_allocator σ) (reloc : Bool)
    (szT alignT : Nat) (s : σ) (v : vec T) (new_cap : Nat)
    (s' : σ) (v' : vec T) (u : Unit)
    (h : try_reserve_grow A reloc szT alignT s v new_cap = (s', v', Except.ok u)) :
    v'.elems = v.elems ∧ v'.cap = new_cap := by
  unfold try_reserve_grow at h
  split at h
  · split at h
    · simp_all
    · simp only [Prod.mk.injEq] at h
      obtain ⟨-, hv, -⟩ := h
      subst hv
      exact ⟨rfl, rfl⟩
  · split at h
    · simp_all
    · split at h <;>
      · simp only [Prod.mk.injEq] at h
        obtain ⟨-, hv, -⟩ := h
        subst hv
        exact ⟨rfl, rfl⟩

theorem try_reserve_ok {σ T : Type} (A : fallible_allocator σ) (reloc : Bool)
    (szT alignT : Nat) (s : σ) (v : vec T) (new_cap : Nat)
    (s' : σ) (v' : vec T) (u : Unit)
    (h : try_reserve A reloc szT alignT s v new_cap = (s', v', Except.ok u)) :
    v'.elems = v.elems ∧ v'.cap = if new_cap ≤ v.cap then v.cap else new_cap := by
  unfold try_reserve at h
  split at h
  next hle =>
    simp only [Prod.mk.injEq] at h
    obtain ⟨-, hv, -⟩ := h
    subst hv
    simp [hle]
  next hgt =>
    rw [if_neg hgt]
    split at h
    · exact try_reserve_grow_ok _ _ _ _ _ _ _ _ _ _ h
    · split at h
      · simp only [Prod.mk.injEq] at h
        obtain ⟨-, hv, -⟩ := h
        subst hv
        exact ⟨rfl, rfl⟩
      · exact try_reserve_grow_ok _ _ _ _ _ _ _ _ _ _ h

/-- C1: strong failure atomicity of `try_reserve` — whenever it returns an
error (the `expand_in_place`, `reallocate` or `allocate` call failed), the
vector's length, capacity, data pointer and every element are exactly as
before the call (the whole `vec` record is unchanged). -/
theorem try_reserve_failure_atomicity {σ T : Type} (A : fallible_allocator σ)
    (reloc : Bool) (szT alignT : Nat) (s : σ) (v : vec T) (new_cap : Nat)
    (s' : σ) (v' : vec T) (e : Error)
    (h : try_reserve A reloc szT alignT s v new_cap = (s', v', Except.error e)) :
    v'.data = v.data ∧ v'.elems = v.elems ∧ v'.cap = v.cap := by
  have := (try_reserve_error A reloc szT alignT s v new_cap s' v' e h).1
  subst this
  exact ⟨rfl, rfl, rfl⟩

/-- Witness for C1: a concrete reserve attempt against the failing
allocator fails and leaves the concrete vector unchanged. -/
theorem try_reserve_failure_atomicity_witness :
    try_reserve failing_alloc true 1 1 () (⟨some 0, [1, 2], 2⟩ : vec Nat) 5
      = ((), ⟨some 0, [1, 2], 2⟩, Except.error Error.allocation_failed) ∧
    ((⟨some 0, [1, 2], 2⟩ : vec Nat).data = some 0 ∧
      (⟨some 0, [1, 2], 2⟩ : vec Nat).elems = [1, 2] ∧
      (⟨some 0, [1, 2], 2⟩ : vec Nat).cap = 2) :=
  ⟨rfl, try_reserve_failure_atomicity failing_alloc true 1 1 ()
    (⟨some 0, [1, 2], 2⟩ : vec Nat) 5 () (⟨some 0, [1, 2], 2⟩ : vec Nat)
    Error.allocation_failed rfl⟩

/-- C7: bounds checks of `try_insert` and `try_erase` — insertion past the
length fails with `out_of_range` (vector unchanged); in-bounds insertion
never fails with `out_of_range`; erasure at or past the length fails with
`out_of_range`; in-bounds erasure succeeds. -/
theorem insert_erase_bounds {σ T : Type} (A : fallible_allocator σ) (reloc : Bool)
    (szT alignT : Nat) (s : σ) (v : vec T) (pos : Nat) (val : T) :
    (pos > v.elems.length →
      try_insert A reloc szT alignT s v pos val = (s, v, Except.error Error.out_of_range)) ∧
    (pos ≤ v.elems.length → ∀ (s' : σ) (v' : vec T) (e : Error),
      try_insert A reloc szT alignT s v pos val = (s', v', Except.error e) →
      e ≠ Error.out_of_range) ∧
    (pos ≥ v.elems.length →
      try_erase v pos = (v, Except.error Error.out_of_range)) ∧
    (pos < v.elems.length →
      try_erase v pos
        = (⟨v.data, v.elems.take pos ++ v.elems.drop (pos + 1), v.cap⟩, Except.ok ())) := by
  refine ⟨fun h => ?_, fun hle s' v' e heq => ?_, fun h => ?_, fun h => ?_⟩
  · simp [try_insert, h]
  · unfold try_insert at heq
    rw [if_neg (by omega)] at heq
    split at heq
    · split at heq
      next e0 hres =>
        simp only [Prod.mk.injEq] at heq
        obtain ⟨-, -, he⟩ := heq
        injection he with he'
        rw [← he', (try_reserve_error _ _ _ _ _ _ _ _ _ _ hres).2]
        decide
      next hres => simp at heq
    · simp at heq
  · simp [try_erase, h]
  · unfold try_erase
    rw [if_neg (by omega)]

/-- Witness for C7: the four cases at concrete inputs. -/
theorem insert_erase_bounds_witness :
    try_insert counting_alloc true 1 1 0 (⟨some 0, [1, 2], 4⟩ : vec Nat) 5 9
      = (0, ⟨some 0, [1, 2], 4⟩, Except.error Error.out_of_range) ∧
    Error.allocation_failed ≠ Error.out_of_range ∧
    try_erase (⟨some 0, [1, 2], 4⟩ : vec Nat) 7
      = (⟨some 0, [1, 2], 4⟩, Except.error Error.out_of_range) ∧
    try_erase (⟨some 0, [1, 2], 4⟩ : vec Nat) 0
      = (⟨some 0, [2], 4⟩, Except.ok ()) :=
  ⟨(insert_erase_bounds counting_alloc true 1 1 0 _ 5 9).1 (by decide),
   (insert_erase_bounds failing_alloc true 1 1 () (⟨some 0, [1, 2], 2⟩ : vec Nat) 1 9).2.1
     (by decide) () (⟨some 0, [1, 2], 2⟩ : vec Nat) Error.allocation_failed rfl,
   (insert_erase_bounds counting_alloc true 1 1 0 (⟨some 0, [1, 2], 4⟩ : vec Nat) 7 9).2.2.1
     (by decide),
   (insert_erase_bounds counting_alloc true 1 1 0 (⟨some 0, [1, 2], 4⟩ : vec Nat) 0 9).2.2.2
     (by decide)⟩

/-- C10: a failed fallible mutation (push, emplace or insert) leaves the
element sequence — and hence the length — exactly as before the call; no
half-applied state is observable. -/
theorem failed_mutation_unapplied {σ T : Type} (A : fallible_allocator σ) (reloc : Bool)
    (szT alignT : Nat) (s : σ) (v : vec T) :
    (∀ (val : T) (s' : σ) (v' : vec T) (e : Error),
      try_push_back A reloc szT alignT s v val = (s', v', Except.error e) →
      v'.elems = v.elems) ∧
    (∀ (hasTryCreate : Bool) (mk : Except Error T) (plain : T) (s' : σ) (v' : vec T) (e : Error),
      try_emplace_back A reloc szT alignT hasTryCreate mk plain s v = (s', v', Except.error e) →
      v'.elems = v.elems) ∧
    (∀ (pos : Nat) (val : T) (s' : σ) (v' : vec T) (e : Error),
      try_insert A reloc szT alignT s v pos val = (s', v', Except.error e) →
      v'.elems = v.elems) := by
  refine ⟨fun val s' v' e heq => ?_, fun hTC mk plain s' v' e heq => ?_,
    fun pos val s' v' e heq => ?_⟩
  · unfold try_push_back at heq
    split at heq
    · split at heq
      next hres =>
        simp only [Prod.mk.injEq] at heq
        obtain ⟨-, hv, -⟩ := heq
        subst hv
        exact congrArg vec.elems (try_reserve_error _ _ _ _ _ _ _ _ _ _ hres).1
      next hres => simp at heq
    · simp at heq
  · unfold try_emplace_back at heq
    split at heq
    · split at heq
      next hres =>
        simp only [Prod.mk.injEq] at heq
        obtain ⟨-, hv, -⟩ := heq
        subst hv
        exact congrArg vec.elems (try_reserve_error _ _ _ _ _ _ _ _ _ _ hres).1
      next v1 hres =>
        split at heq
        · split at heq
          · simp only [Prod.mk.injEq] at heq
            obtain ⟨-, hv, -⟩ := heq
            subst hv
            exact (try_reserve_ok _ _ _ _ _ _ _ _ _ _ hres).1
          · simp at heq
        · simp at heq
    · split at heq
      · split at heq
        · simp only [Prod.mk.injEq] at heq
          obtain ⟨-, hv, -⟩ := heq
          subst hv
          rfl
        · simp at heq
      · simp at heq
  · unfold try_insert at heq
    split at heq
    · simp only [Prod.mk.injEq] at heq
      obtain ⟨-, hv, -⟩ := heq
      subst hv
      rfl
    · split at heq
      · split at heq
        next hres =>
          simp only [Prod.mk.injEq] at heq
          obtain ⟨-, hv, -⟩ := heq
          subst hv
          exact congrArg vec.elems (try_reserve_error _ _ _ _ _ _ _ _ _ _ hres).1
        next hres => simp at heq
      · simp at heq

/-- Witness for C10: a push against the failing allocator on a full vector
fails and leaves the elements unchanged. -/
theorem failed_mutation_unapplied_witness :
    try_push_back failing_alloc true 1 1 () (⟨some 0, [1, 2], 2⟩ : vec Nat) 7
      = ((), ⟨some 0, [1, 2], 2⟩, Except.error Error.allocation_failed) ∧
    (⟨some 0, [1, 2], 2⟩ : vec Nat).elems = (⟨some 0, [1, 2], 2⟩ : vec Nat).elems :=
  ⟨rfl, (failed_mutation_unapplied failing_alloc true 1 1 () (⟨some 0, [1, 2], 2⟩ : vec Nat)).1
    7 () (⟨some 0, [1, 2], 2⟩ : vec Nat) Error.allocation_failed rfl⟩

/-- Counterexample for C3: a full vector of capacity 2 (reachable via
`try_reserve(2)`), pushed under an always-succeeding allocator, grows to
capacity `2 * 2 = 4`, which is strictly below `max(capacity * 2, 8) = 8`:
the code requests `cap_ == 0 ? 8 : cap_ * 2`, not `max(cap_ * 2, 8)`. -/
theorem push_growth_counterexample :
    try_push_back counting_alloc true 4 4 100 (⟨some 0, [10, 20], 2⟩ : vec Nat) 42
      = (116, ⟨some 100, [10, 20, 42], 4⟩, Except.ok 2) ∧
    (⟨some 100, [10, 20, 42], 4⟩ : vec Nat).cap < max (2 * 2) 8 :=
  ⟨rfl, by decide⟩

/-- C3 as amended: when `size_ == cap_`, a push or emplace first reserves
exactly `cap_ == 0 ? 8 : cap_ * 2` (geometric doubling, starting at 8 only
from capacity 0), then constructs the new element at the end and
increments the length by one. -/
theorem push_growth_exact {σ T : Type} (A : fallible_allocator σ) (reloc : Bool)
    (szT alignT : Nat) (s : σ) (v : vec T) (hfull : v.elems.length = v.cap) :
    (∀ (val : T) (s' : σ) (v' : vec T) (i : Nat),
      try_push_back A reloc szT alignT s v val = (s', v', Except.ok i) →
      v'.cap = (if v.cap = 0 then 8 else v.cap * 2) ∧
      v'.elems = v.elems ++ [val] ∧
      v'.elems.length = v.elems.length + 1 ∧ i = v.elems.length) ∧
    (∀ (hasTryCreate : Bool) (mk : Except Error T) (plain : T) (s' : σ) (v' : vec T) (i : Nat),
      try_emplace_back A reloc szT alignT hasTryCreate mk plain s v = (s', v', Except.ok i) →
      v'.cap = (if v.cap = 0 then 8 else v.cap * 2) ∧
      ∃ x, v'.elems = v.elems ++ [x] ∧ v'.elems.length = v.elems.length + 1) := by
  have hreq : ¬ ((if v.cap = 0 then 8 else v.cap * 2) ≤ v.cap) := by
    split <;> omega
  refine ⟨fun val s' v' i heq => ?_, fun hTC mk plain s' v' i heq => ?_⟩
  · unfold try_push_back at heq
    rw [if_pos hfull] at heq
    split at heq
    next hres => simp at heq
    next v1 hres =>
      have hok := try_reserve_ok _ _ _ _ _ _ _ _ _ _ hres
      rw [if_neg hreq] at hok
      simp only [Prod.mk.injEq] at heq
      obtain ⟨-, hv, hi⟩ := heq
      subst hv
      refine ⟨hok.2, ?_, ?_, ?_⟩
      · simp [append_elem, hok.1]
      · simp [append_elem, hok.1]
      · injection hi with hi'
        rw [← hi', hok.1]
  · unfold try_emplace_back at heq
    rw [if_pos hfull] at heq
    split at heq
    next hres => simp at heq
    next v1 hres =>
      have hok := try_reserve_ok _ _ _ _ _ _ _ _ _ _ hres
      rw [if_neg hreq] at hok
      split at heq
      · split at heq
        · simp at heq
        next x =>
          simp only [Prod.mk.injEq] at heq
          obtain ⟨-, hv, -⟩ := heq
          subst hv
          exact ⟨hok.2, x, by simp [append_elem, hok.1], by simp [append_elem, hok.1]⟩
      · simp only [Prod.mk.injEq] at heq
        obtain ⟨-, hv, -⟩ := heq
        subst hv
        exact ⟨hok.2, plain, by simp [append_elem, hok.1], by simp [append_elem, hok.1]⟩

/-- Witness for C3 (amended): pushing onto an empty capacity-0 vector under
the bump allocator grows the capacity to 8 and appends the element. -/
theorem push_growth_exact_witness :
    (([] : List Nat).length = (0 : Nat)) ∧
    ((⟨some 0, [5], 8⟩ : vec Nat).cap = (if (0 : Nat) = 0 then 8 else 0 * 2) ∧
      (⟨some 0, [5], 8⟩ : vec Nat).elems = [] ++ [5] ∧
      (⟨some 0, [5], 8⟩ : vec Nat).elems.length = ([] : List Nat).length + 1 ∧
      (0 : Nat) = ([] : List Nat).length) :=
  ⟨rfl, (push_growth_exact counting_alloc true 4 4 0 (⟨none, [], 0⟩ : vec Nat) rfl).1
    5 32 (⟨some 0, [5], 8⟩ : vec Nat) 0 rfl⟩

/-- Sequential pushes recording, after each push, the capacity the vector
had when its element was constructed; the Bool records overall success. -/
def push_all {σ T : Type} (A : fallible_allocator σ) (reloc : Bool)
    (szT alignT : Nat) : σ → vec T → List T → σ × vec T × List Nat × Bool
  | s, v, [] => (s, v, [], true)
  | s, v, x :: xs =>
    match try_push_back A reloc szT alignT s v x with
    | (s1, v1, Except.ok _) =>
      match push_all A reloc szT alignT s1 v1 xs with
      | (s2, v2, caps, ok) => (s2, v2, v1.cap :: caps, ok)
    | (s1, v1, Except.error _) => (s1, v1, [], false)

/-- C9 (end-to-end scenario A): starting from capacity 0 and pushing
0..8 under a non-failing allocator succeeds, the capacity sequence is
0 → 8 → 16 (initial capacity 0, then per-push capacities
[8,8,8,8,8,8,8,8,16]), the final length is 9, and every element reads back
at its insertion index in order. -/
theorem push_scenario_a :
    push_all counting_alloc true 4 4 0 (⟨none, [], 0⟩ : vec Nat)
        [0, 1, 2, 3, 4, 5, 6, 7, 8]
      = (96, ⟨some 32, [0, 1, 2, 3, 4, 5, 6, 7, 8], 16⟩,
         [8, 8, 8, 8, 8, 8, 8, 8, 16], true) ∧
    (⟨none, [], 0⟩ : vec Nat).cap = 0 ∧
    [8, 8, 8, 8, 8, 8, 8, 8, 16].dedup = [8, 16] ∧
    (⟨some 32, [0, 1, 2, 3, 4, 5, 6, 7, 8], 16⟩ : vec Nat).elems.length = 9 ∧
    (List.range 9).map
        (fun i => try_at (⟨some 32, [0, 1, 2, 3, 4, 5, 6, 7, 8], 16⟩ : vec Nat) i)
      = (List.range 9).map Except.ok :=
  ⟨rfl, rfl, by decide, rfl, rfl⟩

/-- Observable events of the in-place construction dispatcher
(`construction_helpers::try_construct`): shell default-construction, the
fallible hook call, shell destruction, a factory call, the move of a
factory-produced value into storage, and plain placement construction. -/
inductive CEvent where
  | shell_default_construct
  | hook_call
  | shell_destroy
  | factory_call
  | move_into_storage
  | plain_construct
  deriving DecidableEq, Repr

/-- The compile-time capability profile of an element type `T` as seen by
`construction_helpers` (concepts.hpp): which of `has_try_construct`,
`has_try_allocate`, `has_try_create` hold, together with the behaviour of
each optional member for one fixed argument list — the noexcept default
constructor (`shell`), the two-phase hook (`hook`, applied to the shell and
yielding the completed object or an error), the two static factories (as
their already-evaluated results), and the plain nothrow constructor
(`plain`). -/
structure type_model (T : Type) where
  has_try_construct : Bool
  has_try_allocate : Bool
  has_try_create : Bool
  shell : T
  hook : T → Except Error T
  alloc_factory : Except Error T
  create_factory : Except Error T
  plain : T

/-- `construction_helpers::try_construct` (construction_helpers.hpp lines
42-80): the in-place dispatcher.  Returns the final storage state (`none` =
unconstructed), the event trace, and the result.  Priority:
`has_try_construct` (placement-new a shell, call the hook, destroy the
shell on hook failure), then `has_try_allocate`, then `has_try_create`
(factory then move into storage, nothing constructed on factory failure),
then plain placement-new. -/
def ch_try_construct {T : Type} (tm : type_model T) :
    Option T × List CEvent × Except Error Unit :=
  if tm.has_try_construct then
    match tm.hook tm.shell with
    | Except.error e =>
      (none, [CEvent.shell_default_construct, CEvent.hook_call, CEvent.shell_destroy],
        Except.error e)
    | Except.ok x =>
      (some x, [CEvent.shell_default_construct, CEvent.hook_call], Except.ok ())
  else if tm.has_try_allocate then
    match tm.alloc_factory with
    | Except.error e => (none, [CEvent.factory_call], Except.error e)
    | Except.ok x => (some x, [CEvent.factory_call, CEvent.move_into_storage], Except.ok ())
  else if tm.has_try_create then
    match tm.create_factory with
    | Except.error e => (none, [CEvent.factory_call], Except.error e)
    | Except.ok x => (some x, [CEvent.factory_call, CEvent.move_into_storage], Except.ok ())
  else (some tm.plain, [CEvent.plain_construct], Except.ok ())

/-- `construction_helpers::try_allocate` (construction_helpers.hpp lines
92-117): the value-returning dispatcher.  Its priority order in the source
is `has_try_allocate`, then `has_try_create`, then `has_try_construct`
(stack shell + hook), then plain construction. -/
def ch_try_allocate {T : Type} (tm : type_model T) : Except Error T :=
  if tm.has_try_allocate then tm.alloc_factory
  else if tm.has_try_create then tm.create_factory
  else if tm.has_try_construct then
    match tm.hook tm.shell with
    | Except.error e => Except.error e
    | Except.ok x => Except.ok x
  else Except.ok tm.plain

/-- The four construction strategies of §4.2. -/
inductive Strategy where
  | two_phase
  | alloc_factory
  | create_factory
  | plain
  deriving DecidableEq, Repr

/-- Strategy selected by `construction_helpers::try_construct` from the
capability flags, in the source's `if constexpr` order. -/
def construct_strategy (hc ha hr : Bool) : Strategy :=
  if hc then Strategy.two_phase
  else if ha then Strategy.alloc_factory
  else if hr then Strategy.create_factory
  else Strategy.plain

/-- Strategy selected by `construction_helpers::try_allocate` from the
capability flags, in the source's `if constexpr` order. -/
def allocate_strategy (hc ha hr : Bool) : Strategy :=
  if ha then Strategy.alloc_factory
  else if hr then Strategy.create_factory
  else if hc then Strategy.two_phase
  else Strategy.plain

/-- Spec-side definition for the refinement claim, following the spec's
words: "A parallel 'produce a value' entry point runs the same priority
order", i.e. the value dispatcher would select exactly the strategy of the
in-place dispatcher. -/
def allocate_strategy_per_spec (hc ha hr : Bool) : Strategy :=
  construct_strategy hc ha hr

/-- One strategy's in-place behaviour, for relating the dispatcher to its
selected strategy. -/
def run_construct_strategy {T : Type} (tm : type_model T) :
    Strategy → Option T × List CEvent × Except Error Unit
  | Strategy.two_phase =>
    match tm.hook tm.shell with
    | Except.error e =>
      (none, [CEvent.shell_default_construct, CEvent.hook_call, CEvent.shell_destroy],
        Except.error e)
    | Except.ok x =>
      (some x, [CEvent.shell_default_construct, CEvent.hook_call], Except.ok ())
  | Strategy.alloc_factory =>
    match tm.alloc_factory with
    | Except.error e => (none, [CEvent.factory_call], Except.error e)
    | Except.ok x => (some x, [CEvent.factory_call, CEvent.move_into_storage], Except.ok ())
  | Strategy.create_factory =>
    match tm.create_factory with
    | Except.error e => (none, [CEvent.factory_call], Except.error e)
    | Except.ok x => (some x, [CEvent.factory_call, CEvent.move_into_storage], Except.ok ())
  | Strategy.plain => (some tm.plain, [CEvent.plain_construct], Except.ok ())

/-- One strategy's value-returning behaviour. -/
def run_allocate_strategy {T : Type} (tm : type_model T) : Strategy → Except Error T
  | Strategy.two_phase =>
    match tm.hook tm.shell with
    | Except.error e => Except.error e
    | Except.ok x => Except.ok x
  | Strategy.alloc_factory => tm.alloc_factory
  | Strategy.create_factory => tm.create_factory
  | Strategy.plain => Except.ok tm.plain

/-- Counterexample for C2: for a type exposing both the two-phase hook and
the allocator-aware factory, the in-place entry point selects the two-phase
strategy but the value entry point selects the allocator-aware factory —
the two priority orders differ.  Concretely, with a hook completing the
shell to 1 and a factory producing 2, `try_construct` stores 1 while
`try_allocate` returns 2. -/
theorem dispatch_order_counterexample :
    construct_strategy true true false = Strategy.two_phase ∧
    allocate_strategy true true false = Strategy.alloc_factory ∧
    allocate_strategy true true false ≠ allocate_strategy_per_spec true true false ∧
    (ch_try_construct
        (⟨true, true, false, 0, fun _ => Except.ok 1, Except.ok 2, Except.ok 3, 4⟩ :
          type_model Nat)).1 = some 1 ∧
    ch_try_allocate
        (⟨true, true, false, 0, fun _ => Except.ok 1, Except.ok 2, Except.ok 3, 4⟩ :
          type_model Nat) = Except.ok 2 :=
  ⟨rfl, rfl, by decide, rfl, rfl⟩

/-- C2 as amended: each entry point resolves through its own fixed priority
order — `try_construct` checks two-phase hook, allocator-aware factory,
allocator-agnostic factory, then plain; `try_allocate` checks
allocator-aware factory, allocator-agnostic factory, two-phase hook, then
plain — and the two selections coincide exactly when the type lacks the
two-phase hook, or exposes neither factory. -/
theorem dispatch_order_amended {T : Type} (tm : type_model T) :
    ch_try_construct tm
      = run_construct_strategy tm
          (construct_strategy tm.has_try_construct tm.has_try_allocate tm.has_try_create) ∧
    ch_try_allocate tm
      = run_allocate_strategy tm
          (allocate_strategy tm.has_try_construct tm.has_try_allocate tm.has_try_create) ∧
    ∀ hc ha hr : Bool,
      allocate_strategy hc ha hr = construct_strategy hc ha hr ↔
        (hc = false ∨ (ha = false ∧ hr = false)) := by
  refine ⟨?_, ?_, ?_⟩
  · cases h1 : tm.has_try_construct <;> cases h2 : tm.has_try_allocate <;>
      cases h3 : tm.has_try_create <;>
      simp [ch_try_construct, run_construct_strategy, construct_strategy, h1, h2, h3]
  · cases h1 : tm.has_try_construct <;> cases h2 : tm.has_try_allocate <;>
      cases h3 : tm.has_try_create <;>
      simp [ch_try_allocate, run_allocate_strategy, allocate_strategy, h1, h2, h3]
  · intro hc ha hr
    cases hc <;> cases ha <;> cases hr <;> decide

/-- C6: every failure path of the in-place dispatcher leaves the target
storage fully unconstructed; in particular, in the two-phase strategy a
hook failure destroys the default-constructed shell before the error is
returned (the trace is shell construction, hook call, shell destruction,
and nothing else). -/
theorem construct_failure_unwinds {T : Type} (tm : type_model T) :
    (∀ (st : Option T) (tr : List CEvent) (e : Error),
      ch_try_construct tm = (st, tr, Except.error e) → st = none) ∧
    (tm.has_try_construct = true → ∀ e : Error, tm.hook tm.shell = Except.error e →
      ch_try_construct tm
        = (none, [CEvent.shell_default_construct, CEvent.hook_call, CEvent.shell_destroy],
           Except.error e)) := by
  refine ⟨fun st tr e heq => ?_, fun hc e he => ?_⟩
  · unfold ch_try_construct at heq
    split at heq
    · split at heq <;> simp_all
    · split at heq
      · split at heq <;> simp_all
      · split at heq
        · split at heq <;> simp_all
        · simp_all
  · unfold ch_try_construct
    rw [if_pos hc, he]

/-- Witness for C6: a concrete type whose hook fails with
`invalid_argument`; the dispatcher destroys the shell and leaves the
storage unconstructed. -/
theorem construct_failure_unwinds_witness :
    ch_try_construct
        (⟨true, false, false, 0, fun _ => Except.error Error.invalid_argument,
          Except.ok 0, Except.ok 0, 0⟩ : type_model Nat)
      = (none, [CEvent.shell_default_construct, CEvent.hook_call, CEvent.shell_destroy],
         Except.error Error.invalid_argument) ∧
    (none : Option Nat) = none :=
  ⟨(construct_failure_unwinds
      (⟨true, false, false, 0, fun _ => Except.error Error.invalid_argument,
        Except.ok 0, Except.ok 0, 0⟩ : type_model Nat)).2 rfl
      Error.invalid_argument rfl,
   (construct_failure_unwinds
      (⟨true, false, false, 0, fun _ => Except.error Error.invalid_argument,
        Except.ok 0, Except.ok 0, 0⟩ : type_model Nat)).1 none
      [CEvent.shell_default_construct, CEvent.hook_call, CEvent.shell_destroy]
      Error.invalid_argument rfl⟩

/-- Slot-level operations performed by the element-wise paths of the
growable buffer. -/
inductive ShiftOp where
  | move_construct (src dst : Nat)
  | move_assign (src dst : Nat)
  | destroy (idx : Nat)
  deriving DecidableEq, Repr

/-- The operation trace of the non-relocatable shift in `try_insert`
(vector.hpp lines 270-279), for `size_ = n`, insertion position `pos`,
`move_count = n - pos > 0`: move-construct the last element into the new
end slot, move-assign downward for `i = n-1` down to `pos+1`, then destroy
the element at `pos`. -/
def insert_shift_trace (n pos : Nat) : List ShiftOp :=
  ShiftOp.move_construct (n - 1) n ::
    ((List.range (n - 1 - pos)).map fun k => ShiftOp.move_assign (n - 2 - k) (n - 1 - k))
    ++ [ShiftOp.destroy pos]

/-- Spec-side shift for the refinement comparison, following the spec's
words: "element-wise move+destroy per slot, processed from the high index
down" — for each slot from `n-1` down to `pos`, move-construct it one slot
right and destroy the source. -/
def spec_shift_trace (n pos : Nat) : List ShiftOp :=
  ((List.range (n - pos)).map fun k =>
    [ShiftOp.move_construct (n - 1 - k) (n - k), ShiftOp.destroy (n - 1 - k)]).flatten

/-- Value semantics of one slot operation on a buffer of optionally
constructed slots: a move transfers the source value into the destination
(the moved-from source stays constructed until destroyed or assigned
over); destroy ends the slot's lifetime. -/
def run_shift_op {T : Type} (buf : List (Option T)) : ShiftOp → List (Option T)
  | ShiftOp.move_construct src dst => buf.set dst (buf.getD src none)
  | ShiftOp.move_assign src dst => buf.set dst (buf.getD src none)
  | ShiftOp.destroy idx => buf.set idx none

def run_shift_ops {T : Type} (buf : List (Option T)) (ops : List ShiftOp) :
    List (Option T) :=
  ops.foldl run_shift_op buf

/-- Slot-level rendering of the non-relocatable `try_insert` body once
capacity is available: run the shift trace (only when `move_count > 0`),
then construct the new value in the hole at `pos`. -/
def insert_nonreloc_slots {T : Type} (buf : List (Option T)) (n pos : Nat) (val : T) :
    List (Option T) :=
  (if n - pos > 0 then run_shift_ops buf (insert_shift_trace n pos) else buf).set
    pos (some val)

/-- Counterexample for C8: for a 3-element buffer and insertion position 1,
the code's shift trace is one move-construct, one move-assign and a single
destroy at position 1 — not "move+destroy per slot" (which would also
destroy slot 2). -/
theorem insert_shift_counterexample :
    insert_shift_trace 3 1
      = [ShiftOp.move_construct 2 3, ShiftOp.move_assign 1 2, ShiftOp.destroy 1] ∧
    spec_shift_trace 3 1
      = [ShiftOp.move_construct 2 3, ShiftOp.destroy 2,
         ShiftOp.move_construct 1 2, ShiftOp.destroy 1] ∧
    insert_shift_trace 3 1 ≠ spec_shift_trace 3 1 ∧
    ShiftOp.destroy 2 ∉ insert_shift_trace 3 1 := by
  refine ⟨rfl, rfl, by decide, by decide⟩

/-- C8 as amended: inserting into a 3-element buffer of a non-relocatable
type at position 1 shifts `[1, 3)` one slot right by move-constructing the
last element into the end slot, move-assigning the remaining slots downward
from the high index, and destroying only the vacated slot at position 1;
the final order is `[original[0], new, original[1], original[2]]` with
length 4. -/
theorem insert_shift_amended :
    insert_nonreloc_slots [some 10, some 20, some 30, none] 3 1 99
      = [some 10, some 99, some 20, some 30] ∧
    try_insert counting_alloc false 1 1 0 (⟨some 0, [10, 20, 30], 4⟩ : vec Nat) 1 99
      = (0, ⟨some 0, [10, 99, 20, 30], 4⟩, Except.ok 1) ∧
    (⟨some 0, [10, 99, 20, 30], 4⟩ : vec Nat).elems.length = 4 ∧
    insert_shift_trace 3 1
      = [ShiftOp.move_construct 2 3, ShiftOp.move_assign 1 2, ShiftOp.destroy 1] :=
  ⟨rfl, rfl, rfl, rfl⟩

/-- `detail::sp_control_block` (shared_ptr.hpp lines 10-35): the two
counters. -/
structure sp_control_block where
  shared_count : Nat
  weak_count : Nat
  deriving DecidableEq, Repr

/-- The sequential state of one control block and its owned object:
`block = none` after `delete_control_block` has run; `destroyed` counts how
many times `delete_ptr` (the owned object's destructor) has run. -/
structure sp_state where
  block : Option sp_control_block
  destroyed : Nat
  deriving DecidableEq, Repr

/-- The state right after a successful `try_allocate_shared` /
`try_allocate_combined_shared`: the control block is initialized with
`shared_count_{1}` and `weak_count_{1}` and the object is alive. -/
def sp_fresh : sp_state := ⟨some ⟨1, 1⟩, 0⟩

/-- `sp_control_block::release_weak`: decrement the weak count; when the
old value was 1 (count reaches zero), `delete_control_block`. -/
def release_weak (s : sp_state) : sp_state :=
  match s.block with
  | none => s
  | some cb =>
    if cb.weak_count = 1 then { s with block := none }
    else { s with block := some ⟨cb.shared_count, cb.weak_count - 1⟩ }

/-- `sp_control_block::release_shared`: decrement the shared count; when
the old value was 1, run `delete_ptr` (destroying the owned object) and
then drop the block's own weak self-reference. -/
def release_shared (s : sp_state) : sp_state :=
  match s.block with
  | none => s
  | some cb =>
    if cb.shared_count = 1 then
      release_weak { block := some ⟨0, cb.weak_count⟩, destroyed := s.destroyed + 1 }
    else { s with block := some ⟨cb.shared_count - 1, cb.weak_count⟩ }

/-- Copy construction of a bound `shared_ptr` (shared_ptr.hpp lines
98-102): `fetch_add(1)` on the shared count. -/
def copy_shared (s : sp_state) : sp_state :=
  match s.block with
  | none => s
  | some cb => { s with block := some ⟨cb.shared_count + 1, cb.weak_count⟩ }

/-- `shared_ptr::use_count`: the shared count of the bound block, 0 for an
unbound handle. -/
def use_count (s : sp_state) : Nat :=
  match s.block with
  | some cb => cb.shared_count
  | none => 0

theorem copy_shared_iter (n c w d : Nat) :
    copy_shared^[n] ⟨some ⟨c, w⟩, d⟩ = ⟨some ⟨c + n, w⟩, d⟩ := by
  induction n generalizing c with
  | zero => rfl
  | succ n ih =>
    rw [Function.iterate_succ_apply]
    show copy_shared^[n] ⟨some ⟨c + 1, w⟩, d⟩ = _
    rw [ih]
    have h1 : c + 1 + n = c + (n + 1) := by omega
    rw [h1]

theorem release_shared_iter (n c w d : Nat) (hc : 1 ≤ c) :
    release_shared^[n] ⟨some ⟨c + n, w⟩, d⟩ = ⟨some ⟨c, w⟩, d⟩ := by
  induction n generalizing c with
  | zero => rfl
  | succ n ih =>
    rw [Function.iterate_succ_apply]
    have h1 : ¬ (c + (n + 1) = 1) := by omega
    have h2 : c + (n + 1) - 1 = c + n := by omega
    show release_shared^[n] (release_shared ⟨some ⟨c + (n + 1), w⟩, d⟩) = _
    have h3 : release_shared ⟨some ⟨c + (n + 1), w⟩, d⟩ = ⟨some ⟨c + n, w⟩, d⟩ := by
      simp only [release_shared, h1, if_false, h2]
    rw [h3, ih c hc]

/-- C4: a fresh shared handle's control block holds shared count 1 and
weak count 1 and `use_count() = 1`; after `n` copies `use_count() = n+1`;
after dropping all but one, `use_count() = 1`; after dropping the last
shared handle the owned object's destructor has run exactly once (and the
block's self weak-reference has been dropped, freeing the block). -/
theorem sp_refcount_roundtrip (n : Nat) :
    sp_fresh.block = some ⟨1, 1⟩ ∧
    use_count sp_fresh = 1 ∧
    use_count (copy_shared^[n] sp_fresh) = n + 1 ∧
    use_count (release_shared^[n] (copy_shared^[n] sp_fresh)) = 1 ∧
    release_shared (release_shared^[n] (copy_shared^[n] sp_fresh))
      = ⟨none, 1⟩ := by
  have hcopy : copy_shared^[n] sp_fresh = ⟨some ⟨1 + n, 1⟩, 0⟩ := copy_shared_iter n 1 1 0
  have hrel : release_shared^[n] (copy_shared^[n] sp_fresh) = ⟨some ⟨1, 1⟩, 0⟩ := by
    rw [hcopy, release_shared_iter n 1 1 0 (by omega)]
  refine ⟨rfl, rfl, ?_, ?_, ?_⟩
  · rw [hcopy]
    show 1 + n = n + 1
    omega
  · rw [hrel]
    rfl
  · rw [hrel]
    rfl

/-- `weak_ptr::lock` (shared_ptr.hpp lines 278-291), rendered
sequentially: an unbound handle (never attached to a control block) fails
with `empty_pointer`; otherwise the compare-and-swap loop on the shared
count — with no concurrent interference the first CAS settles it — fails
with `pointer_expired` when the count is observed as 0, and otherwise
increments the count and returns a shared handle on the same block.  The
input is the block the weak handle references (`none` = never bound); the
output is the block afterwards. -/
def wp_lock (blk : Option sp_control_block) :
    Option sp_control_block × Except Error Unit :=
  match blk with
  | none => (none, Except.error Error.empty_pointer)
  | some cb =>
    if cb.shared_count = 0 then (blk, Except.error Error.pointer_expired)
    else (some ⟨cb.shared_count + 1, cb.weak_count⟩, Except.ok ())

/-- C5: `weak_ptr::lock` fails with `empty_pointer` when the handle was
never bound; on a bound block it fails with `pointer_expired` exactly when
the shared count is observed as 0 (block untouched), and otherwise the
increment succeeds and the result shares the same control block with the
shared count incremented. -/
theorem wp_lock_cases (blk : Option sp_control_block) :
    (blk = none → wp_lock blk = (none, Except.error Error.empty_pointer)) ∧
    (∀ cb, blk = some cb → cb.shared_count = 0 →
      wp_lock blk = (blk, Except.error Error.pointer_expired)) ∧
    (∀ cb, blk = some cb → cb.shared_count ≠ 0 →
      wp_lock blk = (some ⟨cb.shared_count + 1, cb.weak_count⟩, Except.ok ())) := by
  refine ⟨fun h => ?_, fun cb h h0 => ?_, fun cb h h0 => ?_⟩
  · subst h
    rfl
  · subst h
    simp [wp_lock, h0]
  · subst h
    simp [wp_lock, h0]

/-- Witness for C5: the three cases at concrete blocks — an unbound handle,
an expired block with shared count 0, and a live block with shared count 3
that locks to the same block at count 4. -/
theorem wp_lock_cases_witness :
    wp_lock none = (none, Except.error Error.empty_pointer) ∧
    wp_lock (some ⟨0, 1⟩) = (some ⟨0, 1⟩, Except.error Error.pointer_expired) ∧
    wp_lock (some ⟨3, 1⟩) = (some ⟨4, 1⟩, Except.ok ()) :=
  ⟨(wp_lock_cases none).1 rfl,
   (wp_lock_cases (some ⟨0, 1⟩)).2.1 ⟨0, 1⟩ rfl rfl,
   (wp_lock_cases (some ⟨3, 1⟩)).2.2 ⟨3, 1⟩ rfl (by decide)⟩

end Reloco
